import Mathlib

/-!
Verification of the web-ocr-backend batch extraction-and-distribution
pipeline against its design specification.

The development shallowly embeds the JavaScript source:

* JS strings are modelled as `List Char` (a JS string is a sequence of
  code units; every string the claims touch is plain ASCII, so the
  identification is exact).
* `generateAssetUrl` is translated from src/unnamed/part_005, lines 6-29.
* The POST /extract-text handler (src/unnamed/part_005, lines 36-134) is
  translated as `processFile` / `extractTextHandler`; the per-request
  side effects (capability calls, insert attempts, persisted records,
  fan-out broadcasts) are made explicit in the returned record.
* The SSE subscription registry and `broadcastNewTag`
  (src/routes/manageTagsRoutes.js, lines 188-189 and 509-551) are
  translated as `Registry` / `broadcastNewTag`.
* The GET /stream handler (src/routes/manageTagsRoutes.js, lines
  425-507) is translated as `streamHandler`, with the jwt.verify call
  abstracted as an oracle argument classifying its outcome.

JS numbers are IEEE-754 doubles; `parseInt` on an all-digit string
yields the exact integer value rounded to the nearest double
(ties-to-even).  This rounding is modelled exactly on `Nat` by
`roundToNearestDouble`; double-to-string rendering is modelled by
decimal digits, which matches JS for every value below 10^21 (JS
switches to exponential notation only at 1e21).  All inputs used in the
theorems below stay far below that bound.
-/

/-- Whitespace test used by JS String.prototype.trim, restricted to the
ASCII whitespace characters (space, tab, line feed, carriage return);
the Unicode space forms also trimmed by JS do not occur in any input
considered here. -/
def isWsChar (c : Char) : Bool :=
  c.toNat == 32 || c.toNat == 9 || c.toNat == 10 || c.toNat == 13

/-- JS String.prototype.trim: drop leading and trailing whitespace. -/
def jsTrim (l : List Char) : List Char :=
  ((l.dropWhile isWsChar).reverse.dropWhile isWsChar).reverse

/-- Double quote (code 34) or single quote (code 39), the character
class of the regex /["']/g in part_005 line 81. -/
def isQuoteChar (c : Char) : Bool :=
  c.toNat == 34 || c.toNat == 39

/-- JS s.replace(/["']/g, ""): remove every quote character. -/
def stripQuotes (l : List Char) : List Char :=
  l.filter (fun c => !(isQuoteChar c))

/-- The digit class \d of the validation regex: the characters 0-9
(codes 48-57). -/
def isDigitChar (c : Char) : Bool :=
  48 ≤ c.toNat && c.toNat ≤ 57

/-- JS /^\d+$/.test s: s is non-empty and consists only of digits. -/
def isDigitList (l : List Char) : Bool :=
  !l.isEmpty && l.all isDigitChar

/-- Exact integer value of an all-digit character list (most significant
digit first). -/
def digitsToNat (l : List Char) : Nat :=
  l.foldl (fun a c => 10 * a + (c.toNat - 48)) 0

/-- Fuel-driven floor of the base-2 logarithm (fuel-structural so that
it reduces inside the kernel); exact whenever n < 2 ^ fuel. -/
def natLog2Fuel : Nat → Nat → Nat
  | 0, _ => 0
  | fuel + 1, n => if n ≤ 1 then 0 else natLog2Fuel fuel (n / 2) + 1

/-- Floor of the base-2 logarithm, exact for every n < 2^1100, which
covers the whole finite double range used below. -/
def natLog2 (n : Nat) : Nat := natLog2Fuel 1100 n

/-- Round a natural number to the nearest IEEE-754 double
(round-to-nearest, ties-to-even), expressed exactly on Nat.  Every
natural number up to 2^53 is representable and returned unchanged;
above that the result is the nearest multiple of the ulp 2^(e-52)
where 2^e <= n < 2^(e+1).  Exact for n below 2^1024 (the double
overflow threshold, irrelevant at the inputs considered here). -/
def roundToNearestDouble (n : Nat) : Nat :=
  if n ≤ 2 ^ 53 then n
  else
    let e := natLog2 n
    let ulp := 2 ^ (e - 52)
    let q := n / ulp
    let r := n % ulp
    if 2 * r < ulp then q * ulp
    else if ulp < 2 * r then (q + 1) * ulp
    else if q % 2 == 0 then q * ulp else (q + 1) * ulp

/-- JS parseInt(s, 10) on a string already validated by /^\d+$/: the
exact integer value of the digits, rounded to the nearest double. -/
def jsParseIntDigits (l : List Char) : Nat :=
  roundToNearestDouble (digitsToNat l)

/-- JS String(n) for an integer-valued double below 10^21: its decimal
digits. -/
def jsNumToChars (n : Nat) : List Char :=
  Nat.toDigits 10 n

/-- JS s.padStart(width, pad). -/
def padStart (width : Nat) (pad : Char) (l : List Char) : List Char :=
  if width ≤ l.length then l else List.replicate (width - l.length) pad ++ l

/-- Fixed URL prefix of the asset deep link (part_005 line 26). -/
def assetBaseUrl : List Char :=
  ("https://humphreys.camarathon.net/MarathonWeb/FA/Activities/Assets/AssetMain.aspx?FormAction=Edit&AssetNo=").data

/-- Fixed query-parameter suffix of the asset deep link (part_005
line 28). -/
def assetUrlSuffix : List Char :=
  ("&SortGrid=AssetNo&ItemFilterID=170851").data

/-- URL obtained by interpolating the decimal rendering of n, left
padded with zeros to width 12, between the fixed prefix and suffix. -/
def assetUrlOfNat (n : Nat) : List Char :=
  assetBaseUrl ++ padStart 12 '0' (jsNumToChars n) ++ assetUrlSuffix

/-- generateAssetUrl, src/unnamed/part_005 lines 6-29.  none models a
JS null / non-string argument; the empty list is falsy, mirroring the
!assetTagString check.  The isNaN guard of line 20 is omitted: parseInt
on a regex-validated digit string is never NaN (the source comment
itself calls the check redundant). -/
def generateAssetUrl (assetTagString : Option (List Char)) : Option (List Char) :=
  match assetTagString with
  | none => none
  | some s =>
    if s.isEmpty then none
    else
      let trimmedTag := jsTrim s
      if trimmedTag.isEmpty then none
      else if !(isDigitList trimmedTag) then none
      else
        let numericValue := jsParseIntDigits trimmedTag
        let normalizedForPadding := jsNumToChars numericValue
        let paddedTag := padStart 12 '0' normalizedForPadding
        some (assetBaseUrl ++ paddedTag ++ assetUrlSuffix)

/-- Tag normalization performed by the handler before validation,
part_005 lines 79-81: trim the raw model output, remove every quote
character, trim again. -/
def normalizeTag (raw : List Char) : List Char :=
  jsTrim (stripQuotes (jsTrim raw))

/-- One uploaded file of an /extract-text request, reduced to the two
external outcomes that drive the handler: the result of the OpenAI
capability call (Except.error models a thrown error, Except.ok the
message content with null coalesced to the empty string, part_005
line 76), and whether insertOne would succeed if attempted. -/
structure FileReq where
  capability : Except Unit (List Char)
  dbOk : Bool

/-- Result of one iteration of the per-file loop (part_005 lines
47-126): the text pushed onto allExtractedTexts, whether the outer
catch ran (setting hadError), whether an insertOne was attempted, and
the assetTag value persisted when the insert succeeded. -/
structure FileOutcome where
  text : List Char
  errFlag : Bool
  insertAttempted : Bool
  persisted : Option (List Char)
deriving DecidableEq

/-- One iteration of the per-file loop, part_005 lines 47-126.  On a
capability error the catch block pushes the empty string and sets
hadError (lines 120-125).  Otherwise the trimmed raw text is pushed
(line 77), the tag is normalized by trim / quote-strip / trim (lines
79-81), and iff the normalized tag is non-empty and generateAssetUrl
accepts it, an insert of that normalized tag is attempted (lines
85-114); a failed insert is swallowed by the inner catch (lines
111-114). -/
def processFile (f : FileReq) : FileOutcome :=
  match f.capability with
  | Except.error _ =>
      { text := [], errFlag := true, insertAttempted := false, persisted := none }
  | Except.ok assetTagFromAI =>
      let pushedText := jsTrim assetTagFromAI
      let potentialAssetTag := normalizeTag assetTagFromAI
      if !potentialAssetTag.isEmpty then
        match generateAssetUrl (some potentialAssetTag) with
        | some _assetUrl =>
            if f.dbOk then
              { text := pushedText, errFlag := false, insertAttempted := true,
                persisted := some potentialAssetTag }
            else
              { text := pushedText, errFlag := false, insertAttempted := true,
                persisted := none }
        | none =>
            { text := pushedText, errFlag := false, insertAttempted := false,
              persisted := none }
      else
        { text := pushedText, errFlag := false, insertAttempted := false,
          persisted := none }

/-- Observable result of one POST /extract-text request: HTTP status,
the texts array of the JSON body, and the side-effect trace (persisted
records, fan-out broadcasts, capability calls, insert attempts). -/
structure BatchResult where
  status : Nat
  texts : List (List Char)
  persisted : List (List Char)
  broadcasts : List (List Char)
  capabilityCalls : Nat
  insertAttempts : Nat
deriving DecidableEq

/-- The POST /extract-text handler, src/unnamed/part_005 lines 36-134.
An empty files array is rejected with 400 before the loop (lines
40-42).  Otherwise each file is processed independently (one capability
call per file); the 500 response fires iff hadError is set and every
pushed text is empty (lines 128-131), and both responses carry the full
texts array.  The broadcasts trace is empty: the handler body (lines
85-126) contains no call to broadcastNewTag, the only fan-out entry
point of the repository (manageTagsRoutes.js line 510, exposed unused
at line 551). -/
def extractTextHandler (files : List FileReq) : BatchResult :=
  if files.isEmpty then
    { status := 400, texts := [], persisted := [], broadcasts := [],
      capabilityCalls := 0, insertAttempts := 0 }
  else
    let outcomes := files.map processFile
    let allExtractedTexts := outcomes.map FileOutcome.text
    let hadError := outcomes.any FileOutcome.errFlag
    { status := if hadError && allExtractedTexts.all List.isEmpty then 500 else 200,
      texts := allExtractedTexts,
      persisted := outcomes.filterMap FileOutcome.persisted,
      broadcasts := [],
      capabilityCalls := files.length,
      insertAttempts := (outcomes.filter (fun o => o.insertAttempted)).length }

/-- An SSE channel: an identity plus whether res.write on it throws. -/
structure Channel where
  id : Nat
  writeFails : Bool
deriving DecidableEq

/-- The sseConnections map (manageTagsRoutes.js line 189): scope key
(a userId, or the all-users key) to the set of registered channels,
modelled as an association list of lists. -/
abbrev Registry := List (String × List Channel)

/-- sseConnections.get k: the channels registered under scope k (empty
when the key is absent; keys of a JS Map are unique, so first match is
the match). -/
def scopeChannels : Registry → String → List Channel
  | [], _ => []
  | e :: r, k => if e.fst = k then e.snd else scopeChannels r k

/-- sseConnections.has k. -/
def hasScope : Registry → String → Bool
  | [], _ => false
  | e :: r, k => if e.fst = k then true else hasScope r k

/-- In-place replacement of the channel set stored under key k. -/
def regSet (r : Registry) (k : String) (v : List Channel) : Registry :=
  r.map (fun e => if e.fst = k then (k, v) else e)

/-- The forEach loop over one channel set (manageTagsRoutes.js lines
519-527 and 536-544): each channel is written to once; a channel whose
write throws is caught and deleted from the set, the others are kept.
Returns the surviving channels and the ids that received the newTag
event, in iteration order. -/
def broadcastScope : List Channel → List Channel × List Nat
  | [] => ([], [])
  | c :: rest =>
      let p := broadcastScope rest
      if c.writeFails then p else (c :: p.fst, c.id :: p.snd)

/-- One scope block of broadcastNewTag: if the key is present, run the
forEach over its set and store the survivors back. -/
def fanoutScope (r : Registry) (k : String) : Registry × List Nat :=
  if hasScope r k then
    let p := broadcastScope (scopeChannels r k)
    (regSet r k p.fst, p.snd)
  else (r, [])

/-- broadcastNewTag, manageTagsRoutes.js lines 510-548: fan out first
to the owner userId scope (lines 516-530), then to the all-users scope
(lines 533-547).  Total: every write failure is caught inside the
loops, so no error reaches the caller.  Returns the updated registry
and the ids delivered to, in delivery order. -/
def broadcastNewTag (r : Registry) (owner : String) : Registry × List Nat :=
  let u := fanoutScope r owner
  let a := fanoutScope u.fst "all"
  (a.fst, u.snd ++ a.snd)

/-- Well-formedness of the registry, from the spec data-model
invariant: scope keys are distinct (a JS Map) and a channel belongs to
at most one scope set at a time, with no duplicates inside a set
(JS Sets); stated as distinctness of all registered channel ids. -/
def RegistryWF (r : Registry) : Prop :=
  (r.map Prod.fst).Nodup ∧ ((r.map (fun e => e.snd.map Channel.id)).flatten).Nodup

instance (r : Registry) : Decidable (RegistryWF r) := by
  unfold RegistryWF; infer_instance

/-- Outcome of the jwt.verify call for a given token, classified the
way the stream handler catch discriminates it (manageTagsRoutes.js
lines 453-465): success with the decoded user id, TokenExpiredError,
JsonWebTokenError, or any other failure. -/
inductive VerifyOutcome where
  | ok (userId : String)
  | expired
  | invalid
  | failure
deriving DecidableEq

/-- Rejection reasons of the stream handler, one per early return of
manageTagsRoutes.js lines 434-464. -/
inductive RejectReason where
  | noToken
  | badTokenFormat
  | serverConfig
  | tokenExpired
  | tokenInvalid
  | verifyFailed
deriving DecidableEq

/-- Observable result of one GET /stream request: status, rejection
reason if any, the sseConnections key the response was registered
under if any, and whether jwt.verify was reached. -/
structure StreamResult where
  status : Nat
  reject : Option RejectReason
  registeredKey : Option String
  verifyCalled : Bool
deriving DecidableEq

/-- The GET /stream handler, manageTagsRoutes.js lines 425-507.  token
is the query parameter (none when absent; the !token check also treats
the empty string as absent).  The literal strings null and undefined
are rejected as bad format (lines 440-443); a missing JWT_SECRET is a
500 (lines 446-450); jwt.verify failures map to distinguished 401
reasons (lines 456-465); on success the channel is registered under
the all-users key or the decoded userId (lines 480-484). -/
def streamHandler (token : Option String) (showAllUsers : Bool)
    (secretConfigured : Bool) (verify : String → VerifyOutcome) : StreamResult :=
  match token with
  | none => { status := 401, reject := some RejectReason.noToken,
              registeredKey := none, verifyCalled := false }
  | some t =>
      if t = "" then
        { status := 401, reject := some RejectReason.noToken,
          registeredKey := none, verifyCalled := false }
      else if t = "null" ∨ t = "undefined" then
        { status := 401, reject := some RejectReason.badTokenFormat,
          registeredKey := none, verifyCalled := false }
      else if !secretConfigured then
        { status := 500, reject := some RejectReason.serverConfig,
          registeredKey := none, verifyCalled := false }
      else
        match verify t with
        | VerifyOutcome.ok userId =>
            { status := 200, reject := none,
              registeredKey := some (if showAllUsers then "all" else userId),
              verifyCalled := true }
        | VerifyOutcome.expired =>
            { status := 401, reject := some RejectReason.tokenExpired,
              registeredKey := none, verifyCalled := true }
        | VerifyOutcome.invalid =>
            { status := 401, reject := some RejectReason.tokenInvalid,
              registeredKey := none, verifyCalled := true }
        | VerifyOutcome.failure =>
            { status := 401, reject := some RejectReason.verifyFailed,
              registeredKey := none, verifyCalled := true }

/-- Text entry contributed to the texts array by one file: its trimmed
raw extraction on capability success, the empty string on a capability
error (part_005 lines 77 and 122). -/
def fileText (f : FileReq) : List Char :=
  match f.capability with
  | Except.ok raw => jsTrim raw
  | Except.error _ => []

/-- Whether the capability call for this file threw (the event that
makes the outer catch of part_005 lines 120-125 run). -/
def capErr (f : FileReq) : Bool :=
  match f.capability with
  | Except.error _ => true
  | Except.ok _ => false

/-- A stream credential that the handler treats as missing or malformed
before any verification: absent (the empty string is falsy in JS, so
the !token check also catches it) or the literal text null or
undefined. -/
def absentOrLiteralToken (token : Option String) : Prop :=
  token = none ∨ token = some "" ∨ token = some "null" ∨ token = some "undefined"

instance (token : Option String) : Decidable (absentOrLiteralToken token) := by
  unfold absentOrLiteralToken; infer_instance

/-- Ids of the channels of one set that survive a fan-out pass and
receive the event: those whose write does not throw. -/
def keptIds (l : List Channel) : List Nat :=
  (l.filter (fun c => !c.writeFails)).map Channel.id

/-- Channel-id lists of every scope set of the registry, in registry
order. -/
def idss (r : Registry) : List (List Nat) :=
  r.map (fun e => e.snd.map Channel.id)

/-! ## List and character lemmas -/

theorem dropWhile_idem {α : Type} (p : α → Bool) :
    ∀ l : List α, (l.dropWhile p).dropWhile p = l.dropWhile p := by
  intro l
  induction l with
  | nil => rfl
  | cons b bs ih =>
      by_cases hb : p b = true
      · simp [List.dropWhile_cons, hb, ih]
      · simp [List.dropWhile_cons, hb]

theorem head_dropWhile_false {α : Type} (p : α → Bool) :
    ∀ (l : List α) (a : α) (as : List α), l.dropWhile p = a :: as → p a = false := by
  intro l
  induction l with
  | nil => intro a as h; simp [List.dropWhile] at h
  | cons b bs ih =>
      intro a as h
      by_cases hb : p b = true
      · rw [List.dropWhile_cons, if_pos hb] at h
        exact ih a as h
      · rw [List.dropWhile_cons, if_neg hb] at h
        cases h
        simpa using hb

theorem dropWhile_of_all_false {α : Type} (p : α → Bool) :
    ∀ l : List α, (∀ c ∈ l, p c = false) → l.dropWhile p = l := by
  intro l h
  cases l with
  | nil => rfl
  | cons b bs =>
      rw [List.dropWhile_cons, if_neg]
      simp [h b (List.mem_cons_self b bs)]

/-- jsTrim leaves a list with no whitespace characters unchanged. -/
theorem jsTrim_of_no_ws (l : List Char) (h : ∀ c ∈ l, isWsChar c = false) :
    jsTrim l = l := by
  unfold jsTrim
  rw [dropWhile_of_all_false _ l h,
      dropWhile_of_all_false _ l.reverse (fun c hc => h c (List.mem_reverse.mp hc)),
      List.reverse_reverse]

/-- jsTrim is idempotent: a trimmed list has no surrounding whitespace
left to remove. -/
theorem jsTrim_idem (l : List Char) : jsTrim (jsTrim l) = jsTrim l := by
  have step1 : (jsTrim l).dropWhile isWsChar = jsTrim l := by
    cases he : jsTrim l with
    | nil => simp
    | cons a as =>
        have ha : isWsChar a = false := by
          have hsplit : l.dropWhile isWsChar =
              (jsTrim l) ++ ((l.dropWhile isWsChar).reverse.takeWhile isWsChar).reverse := by
            conv_lhs => rw [← List.reverse_reverse (l.dropWhile isWsChar),
              ← List.takeWhile_append_dropWhile isWsChar (l.dropWhile isWsChar).reverse]
            rw [List.reverse_append]
            rfl
          rw [he] at hsplit
          exact head_dropWhile_false isWsChar l a _ hsplit
        rw [List.dropWhile_cons, if_neg (by simp [ha])]
  show (((jsTrim l).dropWhile isWsChar).reverse.dropWhile isWsChar).reverse = jsTrim l
  rw [step1]
  have step2 : (jsTrim l).reverse.dropWhile isWsChar = (jsTrim l).reverse := by
    show ((((l.dropWhile isWsChar).reverse.dropWhile isWsChar).reverse).reverse).dropWhile isWsChar
        = (((l.dropWhile isWsChar).reverse.dropWhile isWsChar).reverse).reverse
    rw [List.reverse_reverse, dropWhile_idem]
  rw [step2, List.reverse_reverse]

/-- A digit character is not whitespace. -/
theorem digit_not_ws (c : Char) (h : isDigitChar c = true) : isWsChar c = false := by
  simp only [isDigitChar, Bool.and_eq_true, decide_eq_true_eq] at h
  simp only [isWsChar, Bool.or_eq_false_iff, beq_eq_false_iff_ne, ne_eq]
  omega

/-- A digit character is not a quote character. -/
theorem digit_not_quote (c : Char) (h : isDigitChar c = true) : isQuoteChar c = false := by
  simp only [isDigitChar, Bool.and_eq_true, decide_eq_true_eq] at h
  simp only [isQuoteChar, Bool.or_eq_false_iff, beq_eq_false_iff_ne, ne_eq]
  omega

/-- Unfolding of the digit-string test. -/
theorem isDigitList_iff (l : List Char) :
    isDigitList l = true ↔ l ≠ [] ∧ ∀ c ∈ l, isDigitChar c = true := by
  simp [isDigitList, List.all_eq_true, List.isEmpty_eq_false]

/-- jsTrim leaves an all-digit list unchanged. -/
theorem jsTrim_of_digits (l : List Char) (h : ∀ c ∈ l, isDigitChar c = true) :
    jsTrim l = l :=
  jsTrim_of_no_ws l (fun c hc => digit_not_ws c (h c hc))

/-- stripQuotes leaves an all-digit list unchanged. -/
theorem stripQuotes_of_digits (l : List Char) (h : ∀ c ∈ l, isDigitChar c = true) :
    stripQuotes l = l := by
  unfold stripQuotes
  rw [List.filter_eq_self]
  intro c hc
  simp [digit_not_quote c (h c hc)]

/-- Rounding to the nearest double is the identity on the safe integer
range. -/
theorem roundToNearestDouble_of_le (n : Nat) (h : n ≤ 2 ^ 53) :
    roundToNearestDouble n = n := by
  unfold roundToNearestDouble
  rw [if_pos h]

/-- Leading zero digits do not change the integer value of a digit
list. -/
theorem digitsToNat_replicate_zero (k : Nat) (l : List Char) :
    digitsToNat (List.replicate k '0' ++ l) = digitsToNat l := by
  unfold digitsToNat
  rw [List.foldl_append]
  congr 1
  induction k with
  | zero => rfl
  | succ k ih =>
      rw [List.replicate_succ, List.foldl_cons]
      show List.foldl _ 0 (List.replicate k _) = 0
      exact ih

/-- On a regex-clean digit list, generateAssetUrl succeeds and returns
the fixed template around the parsed, re-rendered, zero-padded value. -/
theorem generateAssetUrl_digits (l : List Char) (h : isDigitList l = true) :
    generateAssetUrl (some l) = some (assetUrlOfNat (jsParseIntDigits l)) := by
  obtain ⟨hne, hall⟩ := (isDigitList_iff l).mp h
  have htrim : jsTrim l = l := jsTrim_of_digits l hall
  have hempty : l.isEmpty = false := List.isEmpty_eq_false.mpr hne
  simp [generateAssetUrl, hempty, htrim, h, assetUrlOfNat]

/-! ## Claims C7 and C8: the URL builder -/

/-- C7: the URL builder maps null (no tag) to null and is
value-equivalent under leading zeros: for every accepted digit string,
prepending any number of leading zero digits yields the same URL,
because the tag is parsed as an integer, re-rendered as decimal,
left-padded to width 12 and interpolated into one fixed template.
Determinism is immediate since generateAssetUrl is a function of its
argument. -/
theorem c7_url_leading_zero_equivalence :
    generateAssetUrl none = none ∧
    ∀ (s : List Char) (k : Nat), isDigitList s = true →
      generateAssetUrl (some (List.replicate k '0' ++ s)) = generateAssetUrl (some s) := by
  refine ⟨rfl, ?_⟩
  intro s k h
  obtain ⟨hne, hall⟩ := (isDigitList_iff s).mp h
  have hall2 : ∀ c ∈ List.replicate k '0' ++ s, isDigitChar c = true := by
    intro c hc
    rcases List.mem_append.mp hc with hc | hc
    · rw [List.eq_of_mem_replicate hc]; decide
    · exact hall c hc
  have hne2 : List.replicate k '0' ++ s ≠ [] := by
    intro habs
    exact hne (List.append_eq_nil.mp habs).2
  have h2 : isDigitList (List.replicate k '0' ++ s) = true :=
    (isDigitList_iff _).mpr ⟨hne2, hall2⟩
  rw [generateAssetUrl_digits _ h2, generateAssetUrl_digits _ h]
  unfold jsParseIntDigits
  rw [digitsToNat_replicate_zero]

/-- Witness for C7 at the pair of tags 00123 and 123 named by the
spec. -/
theorem c7_url_leading_zero_equivalence_witness :
    List.replicate 2 '0' ++ ("123").data = ("00123").data ∧
    isDigitList (("123").data) = true ∧
    generateAssetUrl (some (List.replicate 2 '0' ++ ("123").data)) =
      generateAssetUrl (some (("123").data)) :=
  ⟨by decide, by decide,
    c7_url_leading_zero_equivalence.2 (("123").data) 2 (by decide)⟩

set_option maxRecDepth 10000 in
/-- C8 counterexample: the digit string 9007199254740993 (value 2^53+1,
just past the double safe-integer width) is accepted by the normalizer,
but parseInt rounds it to the double 9007199254740992, so the padded
number interpolated into the URL differs from the exact decimal value
of the digit string: silent precision loss. -/
theorem c8_counterexample_precision_loss :
    digitsToNat (("9007199254740993").data) = 9007199254740993 ∧
    jsParseIntDigits (("9007199254740993").data) = 9007199254740992 ∧
    generateAssetUrl (some (("9007199254740993").data)) =
      some (assetUrlOfNat 9007199254740992) ∧
    assetUrlOfNat 9007199254740992 ≠ assetUrlOfNat 9007199254740993 := by
  decide

/-- C8 as amended: for every digit string accepted by the normalizer
whose integer value is within the double safe-integer range (at most
2^53), the padded number interpolated into the URL equals the exact
decimal value of the digit string with leading zeros dropped; beyond
that width parseInt rounds to the nearest double and the guarantee
fails (see the counterexample). -/
theorem c8_exact_value_in_safe_range (l : List Char)
    (hd : isDigitList l = true) (hb : digitsToNat l ≤ 2 ^ 53) :
    generateAssetUrl (some l) = some (assetUrlOfNat (digitsToNat l)) := by
  rw [generateAssetUrl_digits l hd]
  unfold jsParseIntDigits
  rw [roundToNearestDouble_of_le _ hb]

/-- Witness for the amended C8 at the tag 00123. -/
theorem c8_exact_value_in_safe_range_witness :
    isDigitList (("00123").data) = true ∧
    digitsToNat (("00123").data) ≤ 2 ^ 53 ∧
    generateAssetUrl (some (("00123").data)) =
      some (assetUrlOfNat (digitsToNat (("00123").data))) :=
  ⟨by decide, by decide, c8_exact_value_in_safe_range _ (by decide) (by decide)⟩

/-! ## Per-file and per-batch projections -/

/-- The text pushed for a file is its trimmed raw extraction on
capability success and the empty string on capability error,
independently of validation and persistence. -/
theorem processFile_text (f : FileReq) : (processFile f).text = fileText f := by
  obtain ⟨cap, dbOk⟩ := f
  cases cap with
  | error e => rfl
  | ok raw =>
      show (processFile ⟨Except.ok raw, dbOk⟩).text = jsTrim raw
      unfold processFile
      dsimp only
      split
      · split
        · split <;> rfl
        · rfl
      · rfl

/-- The hadError flag contribution of a file records exactly a
capability error: the inner persistence catch never sets it. -/
theorem processFile_errFlag (f : FileReq) : (processFile f).errFlag = capErr f := by
  obtain ⟨cap, dbOk⟩ := f
  cases cap with
  | error e => rfl
  | ok raw =>
      show (processFile ⟨Except.ok raw, dbOk⟩).errFlag = false
      unfold processFile
      dsimp only
      split
      · split
        · split <;> rfl
        · rfl
      · rfl

/-- A file whose insert throws persists nothing. -/
theorem processFile_persisted_none (f : FileReq) (h : f.dbOk = false) :
    (processFile f).persisted = none := by
  obtain ⟨cap, dbOk⟩ := f
  cases cap with
  | error e => rfl
  | ok raw =>
      cases h
      unfold processFile
      dsimp only
      split
      · split
        · rfl
        · rfl
      · rfl

/-- The texts array of a non-empty batch is the input files mapped
through fileText. -/
theorem handler_texts (files : List FileReq) (h : files ≠ []) :
    (extractTextHandler files).texts = files.map fileText := by
  have hne : files.isEmpty = false := List.isEmpty_eq_false.mpr h
  simp only [extractTextHandler, hne, Bool.false_eq_true, if_false]
  rw [List.map_map]
  exact List.map_congr_left (fun f _ => processFile_text f)

/-- The aggregated hadError flag of a non-empty batch is exactly
whether some capability call threw. -/
theorem handler_hadError (files : List FileReq) :
    (files.map processFile).any FileOutcome.errFlag = files.any capErr := by
  induction files with
  | nil => rfl
  | cons f fs ih => simp [List.any_cons, processFile_errFlag, ih]

/-- The status of a non-empty batch: 500 iff some capability call threw
and every pushed text is empty, otherwise 200. -/
theorem handler_status (files : List FileReq) (h : files ≠ []) :
    (extractTextHandler files).status =
      if files.any capErr && (files.map fileText).all List.isEmpty then 500 else 200 := by
  have hne : files.isEmpty = false := List.isEmpty_eq_false.mpr h
  have hmap : List.map FileOutcome.text (List.map processFile files) =
      List.map fileText files := by
    rw [List.map_map]
    exact List.map_congr_left (fun f _ => processFile_text f)
  simp only [extractTextHandler, hne, Bool.false_eq_true, if_false]
  rw [handler_hadError, hmap]

/-- The persistence trace of a non-empty batch. -/
theorem handler_persisted (files : List FileReq) (h : files ≠ []) :
    (extractTextHandler files).persisted =
      (files.map processFile).filterMap FileOutcome.persisted := by
  have hne : files.isEmpty = false := List.isEmpty_eq_false.mpr h
  simp only [extractTextHandler, hne, Bool.false_eq_true, if_false]

/-- One capability call is made per file of a non-empty batch. -/
theorem handler_calls (files : List FileReq) (h : files ≠ []) :
    (extractTextHandler files).capabilityCalls = files.length := by
  have hne : files.isEmpty = false := List.isEmpty_eq_false.mpr h
  simp only [extractTextHandler, hne, Bool.false_eq_true, if_false]

/-! ## Claims about the batch pipeline -/

/-- C1: the pipeline never triggers the fan-out, not even for a record
that was successfully persisted.  The second and third conjuncts
evaluate the handler at a batch whose single image extracts the tag
12345 and whose insert succeeds: the record is persisted, yet the
broadcast trace is empty, because no route of the repository ever calls
broadcastNewTag (it is defined and exposed in manageTagsRoutes.js lines
510 and 551 but has no call site). -/
theorem c1_persisted_record_without_fanout :
    (∀ files : List FileReq, (extractTextHandler files).broadcasts = []) ∧
    (extractTextHandler [{ capability := Except.ok (("12345").data), dbOk := true }]).persisted
      = [("12345").data] ∧
    (extractTextHandler [{ capability := Except.ok (("12345").data), dbOk := true }]).broadcasts
      = [] := by
  refine ⟨?_, by decide, by decide⟩
  intro files
  unfold extractTextHandler
  split <;> rfl

/-- C3: a non-empty batch returns one text per input image in input
order: the array has the same length as the input, and its i-th entry
is the trimmed raw extraction of the i-th image on success and the
empty string when that image's capability call failed. -/
theorem c3_result_array_mirrors_input (files : List FileReq) (h : files ≠ []) :
    (extractTextHandler files).texts.length = files.length ∧
    ∀ i : Nat, (extractTextHandler files).texts[i]? = (files[i]?).map fileText := by
  have htexts := handler_texts files h
  constructor
  · rw [htexts, List.length_map]
  · intro i
    rw [htexts, List.getElem?_map]

/-- Witness for C3 on a two-image batch with one capability failure. -/
theorem c3_result_array_mirrors_input_witness :
    ([{ capability := Except.error (), dbOk := true },
      { capability := Except.ok (("77").data), dbOk := true }] : List FileReq) ≠ [] ∧
    ((extractTextHandler [{ capability := Except.error (), dbOk := true },
        { capability := Except.ok (("77").data), dbOk := true }]).texts.length = 2 ∧
     ∀ i : Nat,
       (extractTextHandler [{ capability := Except.error (), dbOk := true },
          { capability := Except.ok (("77").data), dbOk := true }]).texts[i]? =
       (([{ capability := Except.error (), dbOk := true },
           { capability := Except.ok (("77").data), dbOk := true }] : List FileReq)[i]?).map fileText) :=
  ⟨List.cons_ne_nil _ _,
   c3_result_array_mirrors_input _ (List.cons_ne_nil _ _)⟩

/-- C4: a non-empty batch is reported as a failure (status 500) iff at
least one capability call threw a hard error and every entry of the
texts array is empty; one non-empty extracted text forces a success
report even if other images failed, and the failure report still
carries the full per-item array. -/
theorem c4_batch_failure_policy (files : List FileReq) (h : files ≠ []) :
    ((extractTextHandler files).status = 500 ↔
      ((∃ f ∈ files, capErr f = true) ∧
       ∀ t ∈ (extractTextHandler files).texts, t = [])) ∧
    ((∃ t ∈ (extractTextHandler files).texts, t ≠ []) →
      (extractTextHandler files).status = 200) ∧
    (extractTextHandler files).texts = files.map fileText := by
  have htexts := handler_texts files h
  have hstatus := handler_status files h
  have hiff : (extractTextHandler files).status = 500 ↔
      ((∃ f ∈ files, capErr f = true) ∧
       ∀ t ∈ (extractTextHandler files).texts, t = []) := by
    rw [hstatus, htexts]
    constructor
    · intro h500
      by_cases hc : (files.any capErr && (List.map fileText files).all List.isEmpty) = true
      · obtain ⟨h1, h2⟩ := Bool.and_eq_true_iff.mp hc
        refine ⟨List.any_eq_true.mp h1, ?_⟩
        intro t ht
        exact List.isEmpty_iff.mp (List.all_eq_true.mp h2 t ht)
      · rw [if_neg hc] at h500
        omega
    · rintro ⟨h1, h2⟩
      have hc : (files.any capErr && (List.map fileText files).all List.isEmpty) = true := by
        rw [Bool.and_eq_true_iff]
        refine ⟨List.any_eq_true.mpr h1, List.all_eq_true.mpr ?_⟩
        intro t ht
        exact List.isEmpty_iff.mpr (h2 t ht)
      rw [if_pos hc]
  refine ⟨hiff, ?_, htexts⟩
  rintro ⟨t, ht, htne⟩
  rw [hstatus]
  rw [if_neg]
  intro hc
  obtain ⟨_, h2⟩ := Bool.and_eq_true_iff.mp hc
  rw [htexts] at ht
  exact htne (List.isEmpty_iff.mp (List.all_eq_true.mp h2 t ht))

/-- Witness for C4 on a batch of one failing and one successful
image: partial success reports 200. -/
theorem c4_batch_failure_policy_witness :
    ([{ capability := Except.error (), dbOk := true },
      { capability := Except.ok (("77").data), dbOk := true }] : List FileReq) ≠ [] ∧
    ((extractTextHandler [{ capability := Except.error (), dbOk := true },
        { capability := Except.ok (("77").data), dbOk := true }]).status = 500 ↔
      ((∃ f ∈ ([{ capability := Except.error (), dbOk := true },
            { capability := Except.ok (("77").data), dbOk := true }] : List FileReq),
          capErr f = true) ∧
       ∀ t ∈ (extractTextHandler [{ capability := Except.error (), dbOk := true },
          { capability := Except.ok (("77").data), dbOk := true }]).texts, t = [])) :=
  ⟨List.cons_ne_nil _ _,
   (c4_batch_failure_policy _ (List.cons_ne_nil _ _)).1⟩

/-- C5: the empty batch is rejected with the 400 validation error and
an untouched side-effect trace (no capability call, no insert attempt,
no persisted record, no broadcast), and this guard is the only
request-aborting path: every non-empty batch runs one capability call
per file and answers 200 or 500, never 400. -/
theorem c5_empty_batch_precondition :
    extractTextHandler [] =
      { status := 400, texts := [], persisted := [], broadcasts := [],
        capabilityCalls := 0, insertAttempts := 0 } ∧
    ∀ files : List FileReq, files ≠ [] →
      ((extractTextHandler files).status ≠ 400 ∧
       (extractTextHandler files).capabilityCalls = files.length) := by
  refine ⟨rfl, ?_⟩
  intro files h
  refine ⟨?_, handler_calls files h⟩
  rw [handler_status files h]
  split <;> omega

/-- Witness for C5 on a singleton batch. -/
theorem c5_empty_batch_precondition_witness :
    ([{ capability := Except.ok ([] : List Char), dbOk := true }] : List FileReq) ≠ [] ∧
    ((extractTextHandler [{ capability := Except.ok ([] : List Char), dbOk := true }]).status ≠ 400 ∧
     (extractTextHandler [{ capability := Except.ok ([] : List Char), dbOk := true }]).capabilityCalls = 1) :=
  ⟨List.cons_ne_nil _ _,
   c5_empty_batch_precondition.2 _ (List.cons_ne_nil _ _)⟩

/-- C10: persistence failures never mark the batch as failed: a
non-empty batch in which every capability call succeeded and every
insert threw still answers 200 with the extracted texts, persisting
nothing. -/
theorem c10_db_failures_still_success (files : List FileReq) (h : files ≠ [])
    (hcap : ∀ f ∈ files, capErr f = false)
    (hdb : ∀ f ∈ files, f.dbOk = false) :
    (extractTextHandler files).status = 200 ∧
    (extractTextHandler files).persisted = [] ∧
    (extractTextHandler files).texts = files.map fileText := by
  refine ⟨?_, ?_, handler_texts files h⟩
  · rw [handler_status files h]
    have hany : files.any capErr = false := by
      rw [List.any_eq_false]
      intro f hf
      simp [hcap f hf]
    rw [hany, Bool.false_and]
    simp
  · rw [handler_persisted files h]
    rw [List.filterMap_eq_nil_iff]
    intro o ho
    obtain ⟨f, hf, rfl⟩ := List.mem_map.mp ho
    exact processFile_persisted_none f (hdb f hf)

/-- Witness for C10: one image extracting 12345 whose insert throws. -/
theorem c10_db_failures_still_success_witness :
    ([{ capability := Except.ok (("12345").data), dbOk := false }] : List FileReq) ≠ [] ∧
    (∀ f ∈ ([{ capability := Except.ok (("12345").data), dbOk := false }] : List FileReq),
      capErr f = false) ∧
    (∀ f ∈ ([{ capability := Except.ok (("12345").data), dbOk := false }] : List FileReq),
      f.dbOk = false) ∧
    ((extractTextHandler [{ capability := Except.ok (("12345").data), dbOk := false }]).status = 200 ∧
     (extractTextHandler [{ capability := Except.ok (("12345").data), dbOk := false }]).persisted = []) :=
  ⟨List.cons_ne_nil _ _, by decide, by decide,
   ⟨(c10_db_failures_still_success _ (List.cons_ne_nil _ _) (by decide) (by decide)).1,
    (c10_db_failures_still_success _ (List.cons_ne_nil _ _) (by decide) (by decide)).2.1⟩⟩

/-- On a pre-trimmed list that fails the digit regex, generateAssetUrl
rejects. -/
theorem generateAssetUrl_none_of_not_digits (t : List Char)
    (htrim : jsTrim t = t) (h : isDigitList t = false) :
    generateAssetUrl (some t) = none := by
  cases he : t.isEmpty with
  | true => simp [generateAssetUrl, he]
  | false => simp [generateAssetUrl, he, htrim, h]

/-- C6: the normalizer strips surrounding whitespace and every quote
character from the raw model output, and the handler accepts the
result (attempting persistence of exactly that string) iff it matches
the digit regex; a failing result only skips the tag, it never throws
(the model is a total function).  When the stripped result is a digit
string, the persisted assetTag is that digit string unchanged, leading
zeros included. -/
theorem c6_normalizer_contract (raw : List Char) :
    ((processFile { capability := Except.ok raw, dbOk := true }).insertAttempted = true ↔
      isDigitList (normalizeTag raw) = true) ∧
    (isDigitList (normalizeTag raw) = true →
      (processFile { capability := Except.ok raw, dbOk := true }).persisted =
        some (normalizeTag raw)) := by
  have hidem : jsTrim (normalizeTag raw) = normalizeTag raw := jsTrim_idem _
  cases hd : isDigitList (normalizeTag raw) with
  | true =>
      have hurl := generateAssetUrl_digits _ hd
      have hne : normalizeTag raw ≠ [] := ((isDigitList_iff _).mp hd).1
      have hnem : (normalizeTag raw).isEmpty = false := List.isEmpty_eq_false.mpr hne
      constructor
      · simp [processFile, hnem, hurl]
      · intro
        simp [processFile, hnem, hurl]
  | false =>
      cases hne : (normalizeTag raw).isEmpty with
      | true =>
          simp [processFile, hne]
      | false =>
          have hurl := generateAssetUrl_none_of_not_digits _ hidem hd
          simp [processFile, hne, hurl]

/-- Witness for C6 on the raw output consisting of 00123 wrapped in
double quotes and spaces: the stored tag is the quote-stripped,
trimmed digit string with its leading zeros intact. -/
theorem c6_normalizer_contract_witness :
    normalizeTag ([' ', Char.ofNat 34, '0', '0', '1', '2', '3', Char.ofNat 34, ' '])
      = ("00123").data ∧
    isDigitList (normalizeTag
      ([' ', Char.ofNat 34, '0', '0', '1', '2', '3', Char.ofNat 34, ' '])) = true ∧
    (processFile
        { capability := Except.ok [' ', Char.ofNat 34, '0', '0', '1', '2', '3', Char.ofNat 34, ' '],
          dbOk := true }).persisted =
      some (normalizeTag ([' ', Char.ofNat 34, '0', '0', '1', '2', '3', Char.ofNat 34, ' '])) :=
  ⟨by decide, by decide,
   (c6_normalizer_contract ([' ', Char.ofNat 34, '0', '0', '1', '2', '3', Char.ofNat 34, ' '])).2
     (by decide)⟩

/-! ## Claim C9: the live-subscribe authentication gate -/

/-- C9: a live-subscribe request whose credential is absent (including
the falsy empty string) or textually the literal null or undefined is
rejected 401 before jwt.verify runs and before any channel is
registered; any other credential is verified (given a configured
secret), and a verification failure is rejected 401 with no channel
registered, under a reason that distinguishes an expired credential
from an invalid one. -/
theorem c9_stream_auth_gate (token : Option String) (showAll : Bool)
    (verify : String → VerifyOutcome) :
    (absentOrLiteralToken token →
      ∀ secretConfigured : Bool,
        (streamHandler token showAll secretConfigured verify).status = 401 ∧
        (streamHandler token showAll secretConfigured verify).registeredKey = none ∧
        (streamHandler token showAll secretConfigured verify).verifyCalled = false) ∧
    (¬ absentOrLiteralToken token →
      ∀ t : String, token = some t →
        ((streamHandler token showAll true verify).verifyCalled = true ∧
         (verify t = VerifyOutcome.expired →
            streamHandler token showAll true verify =
              { status := 401, reject := some RejectReason.tokenExpired,
                registeredKey := none, verifyCalled := true }) ∧
         (verify t = VerifyOutcome.invalid →
            streamHandler token showAll true verify =
              { status := 401, reject := some RejectReason.tokenInvalid,
                registeredKey := none, verifyCalled := true }) ∧
         (verify t = VerifyOutcome.failure →
            streamHandler token showAll true verify =
              { status := 401, reject := some RejectReason.verifyFailed,
                registeredKey := none, verifyCalled := true }) ∧
         RejectReason.tokenExpired ≠ RejectReason.tokenInvalid)) := by
  constructor
  · intro habs secretConfigured
    rcases habs with h | h | h | h <;> subst h <;> simp [streamHandler]
  · intro hnot t ht
    subst ht
    have h1 : ¬ t = "" := fun h => hnot (Or.inr (Or.inl (by rw [h])))
    have h2 : ¬ (t = "null" ∨ t = "undefined") := by
      rintro (h | h)
      · exact hnot (Or.inr (Or.inr (Or.inl (by rw [h]))))
      · exact hnot (Or.inr (Or.inr (Or.inr (by rw [h]))))
    refine ⟨?_, ?_, ?_, ?_, by decide⟩ <;>
      · simp [streamHandler, h1, h2]
        cases hv : verify t <;> simp

/-- Witness for C9 at the literal credential undefined named by the
spec test bullet, and at a syntactically present credential whose
verification reports expiry. -/
theorem c9_stream_auth_gate_witness :
    absentOrLiteralToken (some "undefined") ∧
    ((streamHandler (some "undefined") false true (fun _ => VerifyOutcome.expired)).status = 401 ∧
     (streamHandler (some "undefined") false true (fun _ => VerifyOutcome.expired)).registeredKey = none ∧
     (streamHandler (some "undefined") false true (fun _ => VerifyOutcome.expired)).verifyCalled = false) :=
  ⟨by decide,
   (c9_stream_auth_gate (some "undefined") false (fun _ => VerifyOutcome.expired)).1
     (by decide) true⟩

/-! ## Registry fan-out lemmas -/

/-- The channels kept by one fan-out pass are exactly those whose write
does not throw. -/
theorem broadcastScope_fst (l : List Channel) :
    (broadcastScope l).fst = l.filter (fun c => !c.writeFails) := by
  induction l with
  | nil => rfl
  | cons c rest ih =>
      cases hc : c.writeFails <;>
        simp [broadcastScope, List.filter_cons, hc, ih]

/-- The ids delivered to by one fan-out pass are exactly the kept
channel ids, in set order. -/
theorem broadcastScope_snd (l : List Channel) :
    (broadcastScope l).snd = keptIds l := by
  induction l with
  | nil => rfl
  | cons c rest ih =>
      cases hc : c.writeFails <;>
        simp [broadcastScope, keptIds, List.filter_cons, hc, ih]

/-- An absent scope key has no channels. -/
theorem scopeChannels_of_hasScope_false (r : Registry) (k : String)
    (h : hasScope r k = false) : scopeChannels r k = [] := by
  induction r with
  | nil => rfl
  | cons e rest ih =>
      by_cases hek : e.fst = k
      · simp [hasScope, hek] at h
      · simp only [hasScope, if_neg hek] at h
        simp only [scopeChannels, if_neg hek]
        exact ih h

/-- The deliveries of one scope block are the kept ids of that scope's
set, whether or not the key is present. -/
theorem fanoutScope_snd (r : Registry) (k : String) :
    (fanoutScope r k).snd = keptIds (scopeChannels r k) := by
  unfold fanoutScope
  cases h : hasScope r k with
  | true => simp [broadcastScope_snd]
  | false => simp [scopeChannels_of_hasScope_false r k h, keptIds]


/-- Updating one key leaves every other key's channel set unchanged. -/
theorem regSet_scope_other (r : Registry) (k k' : String) (v : List Channel)
    (h : k' ≠ k) : scopeChannels (regSet r k v) k' = scopeChannels r k' := by
  induction r with
  | nil => rfl
  | cons e rest ih =>
      unfold regSet at ih ⊢
      rw [List.map_cons]
      by_cases hek : e.fst = k
      · have h1 : ¬ ((k, v).fst = k') := fun hkk => h hkk.symm
        have h2 : ¬ (e.fst = k') := fun hkk => h (hek ▸ hkk).symm
        rw [if_pos hek]
        simp only [scopeChannels, if_neg h1, if_neg h2]
        exact ih
      · rw [if_neg hek]
        by_cases hek' : e.fst = k'
        · simp only [scopeChannels, if_pos hek']
        · simp only [scopeChannels, if_neg hek']
          exact ih

/-- Updating a present key stores exactly the new channel set. -/
theorem regSet_scope_self (r : Registry) (k : String) (v : List Channel)
    (h : hasScope r k = true) : scopeChannels (regSet r k v) k = v := by
  induction r with
  | nil => simp [hasScope] at h
  | cons e rest ih =>
      unfold regSet at ih ⊢
      rw [List.map_cons]
      by_cases hek : e.fst = k
      · rw [if_pos hek]
        simp [scopeChannels]
      · rw [if_neg hek]
        simp only [hasScope, if_neg hek] at h
        simp only [scopeChannels, if_neg hek]
        exact ih h

/-- A fan-out over one key leaves every other key's channel set
unchanged. -/
theorem fanoutScope_scope_other (r : Registry) (k k' : String)
    (h : k' ≠ k) : scopeChannels (fanoutScope r k).fst k' = scopeChannels r k' := by
  unfold fanoutScope
  cases hs : hasScope r k with
  | true => simp [regSet_scope_other r k k' _ h]
  | false => simp

/-- After a fan-out over key k, the channels registered under k are
exactly those of the original set whose write did not throw. -/
theorem fanoutScope_scope_self (r : Registry) (k : String) :
    scopeChannels (fanoutScope r k).fst k =
      (scopeChannels r k).filter (fun c => !c.writeFails) := by
  unfold fanoutScope
  cases hs : hasScope r k with
  | true => simp [regSet_scope_self r k _ hs, broadcastScope_fst]
  | false => simp [scopeChannels_of_hasScope_false r k hs]

/-- The delivery list of a broadcast whose owner is not the all-users
key: first the kept ids of the owner scope, then those of the
all-users scope. -/
theorem broadcastNewTag_snd (r : Registry) (owner : String) (h : owner ≠ "all") :
    (broadcastNewTag r owner).snd =
      keptIds (scopeChannels r owner) ++ keptIds (scopeChannels r "all") := by
  simp only [broadcastNewTag]
  rw [fanoutScope_snd, fanoutScope_snd,
      fanoutScope_scope_other r owner "all" (fun hx => h hx.symm)]

/-- Every id of a scope set occurs among the registered ids. -/
theorem mem_scope_ids_mem_flatten (r : Registry) (k : String) (i : Nat)
    (h : i ∈ (scopeChannels r k).map Channel.id) : i ∈ (idss r).flatten := by
  induction r with
  | nil => simp [scopeChannels] at h
  | cons e rest ih =>
      rw [show idss (e :: rest) = (e.snd.map Channel.id) :: idss rest from rfl,
          List.flatten_cons, List.mem_append]
      by_cases hek : e.fst = k
      · left
        simpa [scopeChannels, hek] using h
      · right
        apply ih
        simpa [scopeChannels, hek] using h

/-- Under the registry invariant, each scope set has pairwise distinct
channel ids. -/
theorem scope_ids_nodup (r : Registry) (k : String)
    (h : (idss r).flatten.Nodup) : ((scopeChannels r k).map Channel.id).Nodup := by
  induction r with
  | nil => simp [scopeChannels]
  | cons e rest ih =>
      rw [show idss (e :: rest) = (e.snd.map Channel.id) :: idss rest from rfl,
          List.flatten_cons, List.nodup_append] at h
      by_cases hek : e.fst = k
      · simpa [scopeChannels, hek] using h.1
      · simp only [scopeChannels, if_neg hek]
        exact ih h.2.1

/-- Under the registry invariant, the id sets of two different scopes
are disjoint: a channel belongs to at most one scope. -/
theorem scope_ids_disjoint (r : Registry) (k k' : String) (hkk : k ≠ k')
    (h : (idss r).flatten.Nodup) (i : Nat)
    (hi : i ∈ (scopeChannels r k).map Channel.id) :
    i ∉ (scopeChannels r k').map Channel.id := by
  induction r with
  | nil => simp [scopeChannels] at hi
  | cons e rest ih =>
      rw [show idss (e :: rest) = (e.snd.map Channel.id) :: idss rest from rfl,
          List.flatten_cons, List.nodup_append] at h
      by_cases hek : e.fst = k
      · have hek' : ¬ e.fst = k' := fun hx => hkk (hek.symm.trans hx)
        simp only [scopeChannels, if_pos hek] at hi
        simp only [scopeChannels, if_neg hek']
        intro hmem
        exact h.2.2 hi (mem_scope_ids_mem_flatten rest k' i hmem)
      · by_cases hek' : e.fst = k'
        · simp only [scopeChannels, if_neg hek] at hi
          simp only [scopeChannels, if_pos hek']
          intro hmem
          exact h.2.2 hmem (mem_scope_ids_mem_flatten rest k i hi)
        · simp only [scopeChannels, if_neg hek] at hi
          simp only [scopeChannels, if_neg hek']
          exact ih h.2.1 hi

/-- The delivered ids of one pass form a sublist of the set's ids. -/
theorem keptIds_sublist (l : List Channel) :
    (keptIds l).Sublist (l.map Channel.id) :=
  (List.filter_sublist l).map Channel.id

/-- A present, non-failing channel of a duplicate-free set is delivered
to exactly once by one pass. -/
theorem count_keptIds_of_mem (l : List Channel) (hnd : (l.map Channel.id).Nodup)
    (c : Channel) (hc : c ∈ l) (hf : c.writeFails = false) :
    (keptIds l).count c.id = 1 := by
  apply List.count_eq_one_of_mem
  · exact List.Nodup.sublist (keptIds_sublist l) hnd
  · unfold keptIds
    exact List.mem_map.mpr ⟨c, List.mem_filter.mpr ⟨hc, by simp [hf]⟩, rfl⟩

/-- A channel whose id is not registered in a set is never delivered to
by the pass over that set. -/
theorem count_keptIds_of_not_mem (l : List Channel) (c : Channel)
    (h : c.id ∉ l.map Channel.id) : (keptIds l).count c.id = 0 := by
  rw [List.count_eq_zero]
  intro hmem
  exact h ((keptIds_sublist l).subset hmem)

/-- C2: broadcasting a record owned by user U delivers exactly one
newTag event to every non-failing channel subscribed under scope U and
every non-failing channel subscribed under the all-users scope, none to
a channel subscribed under any other scope; a channel whose write
throws is removed from its scope set while the others still receive
their event, and the fan-out itself is a total function, so no error
reaches the caller of broadcast. -/
theorem c2_broadcast_scoped_fanout (r : Registry) (owner : String)
    (howner : owner ≠ "all") (hwf : RegistryWF r) :
    (∀ c ∈ scopeChannels r owner, c.writeFails = false →
       (broadcastNewTag r owner).snd.count c.id = 1) ∧
    (∀ c ∈ scopeChannels r "all", c.writeFails = false →
       (broadcastNewTag r owner).snd.count c.id = 1) ∧
    (∀ k ∈ r.map Prod.fst, k ≠ owner → k ≠ "all" →
       ∀ c ∈ scopeChannels r k, (broadcastNewTag r owner).snd.count c.id = 0) ∧
    (∀ c ∈ scopeChannels r owner, c.writeFails = true →
       c ∉ scopeChannels (broadcastNewTag r owner).fst owner) ∧
    (∀ c ∈ scopeChannels r "all", c.writeFails = true →
       c ∉ scopeChannels (broadcastNewTag r owner).fst "all") := by
  unfold RegistryWF at hwf
  have hflat : (idss r).flatten.Nodup := hwf.2
  have hds := broadcastNewTag_snd r owner howner
  have hall_ne : ("all" : String) ≠ owner := fun hx => howner hx.symm
  refine ⟨?_, ?_, ?_, ?_, ?_⟩
  · intro c hc hf
    rw [hds, List.count_append]
    rw [count_keptIds_of_mem _ (scope_ids_nodup r owner hflat) c hc hf,
        count_keptIds_of_not_mem _ c
          (scope_ids_disjoint r owner "all" howner hflat c.id
            (List.mem_map.mpr ⟨c, hc, rfl⟩))]
  · intro c hc hf
    rw [hds, List.count_append]
    rw [count_keptIds_of_not_mem _ c
          (scope_ids_disjoint r "all" owner hall_ne hflat c.id
            (List.mem_map.mpr ⟨c, hc, rfl⟩)),
        count_keptIds_of_mem _ (scope_ids_nodup r "all" hflat) c hc hf]
  · intro k hk hko hka c hc
    rw [hds, List.count_append]
    rw [count_keptIds_of_not_mem _ c
          (scope_ids_disjoint r k owner hko hflat c.id
            (List.mem_map.mpr ⟨c, hc, rfl⟩)),
        count_keptIds_of_not_mem _ c
          (scope_ids_disjoint r k "all" hka hflat c.id
            (List.mem_map.mpr ⟨c, hc, rfl⟩))]
  · intro c hc hf
    have hscope : scopeChannels (broadcastNewTag r owner).fst owner =
        (scopeChannels r owner).filter (fun c => !c.writeFails) := by
      simp only [broadcastNewTag]
      rw [fanoutScope_scope_other _ "all" owner howner, fanoutScope_scope_self]
    rw [hscope]
    intro hmem
    have hkeep := (List.mem_filter.mp hmem).2
    rw [hf] at hkeep
    simp at hkeep
  · intro c hc hf
    have hscope : scopeChannels (broadcastNewTag r owner).fst "all" =
        (scopeChannels r "all").filter (fun c => !c.writeFails) := by
      simp only [broadcastNewTag]
      rw [fanoutScope_scope_self, fanoutScope_scope_other r owner "all" hall_ne]
    rw [hscope]
    intro hmem
    have hkeep := (List.mem_filter.mp hmem).2
    rw [hf] at hkeep
    simp at hkeep

/-- Witness for C2 on a three-scope registry: owner u1 has channels 1
(healthy) and 2 (write throws), the all-users scope has channel 3,
user u2 has channel 4. -/
theorem c2_broadcast_scoped_fanout_witness :
    ("u1" : String) ≠ "all" ∧
    RegistryWF [("u1", [⟨1, false⟩, ⟨2, true⟩]), ("all", [⟨3, false⟩]), ("u2", [⟨4, false⟩])] ∧
    (∀ c ∈ scopeChannels
        [("u1", [⟨1, false⟩, ⟨2, true⟩]), ("all", [⟨3, false⟩]), ("u2", [⟨4, false⟩])] "u1",
      c.writeFails = false →
        (broadcastNewTag
          [("u1", [⟨1, false⟩, ⟨2, true⟩]), ("all", [⟨3, false⟩]), ("u2", [⟨4, false⟩])]
          "u1").snd.count c.id = 1) :=
  ⟨by decide, by decide,
   (c2_broadcast_scoped_fanout
      [("u1", [⟨1, false⟩, ⟨2, true⟩]), ("all", [⟨3, false⟩]), ("u2", [⟨4, false⟩])]
      "u1" (by decide) (by decide)).1⟩
